import Mathlib

/-!
Verification of the storefront cart core (src/src/App.js): the pricing rule
`getCustomPrice`, the cart store operations `addToCart`, `updateQty`,
`removeFromCart`, the cart total, and the checkout validation `submitOrder`.

Numbers (prices, quantities) are modelled as rationals, JS `%` as the
truncated remainder (sign of the dividend), JS `String.prototype.includes`
as substring containment, and JS string truthiness as non-emptiness.
-/

/-- startsWithAux pat l is true when the character list pat occurs at the
head of the character list l. -/
def startsWithAux : List Char → List Char → Bool
  | [], _ => true
  | _ :: _, [] => false
  | a :: ps, b :: ls => a == b && startsWithAux ps ls

/-- containsAux pat l is true when the character list pat occurs contiguously
anywhere inside the character list l (the empty pattern always occurs). -/
def containsAux (pat : List Char) : List Char → Bool
  | [] => startsWithAux pat []
  | c :: ls => startsWithAux pat (c :: ls) || containsAux pat ls

/-- strContains s pat models JS s.includes(pat): substring containment. -/
def strContains (s pat : String) : Bool :=
  containsAux pat.data s.data

/-- jsTrunc q is the integer part of q, rounding toward zero, as JS division
underlying the % operator does. -/
def jsTrunc (q : ℚ) : ℤ :=
  if 0 ≤ q then ⌊q⌋ else ⌈q⌉

/-- jsMod a b models the JS remainder operator a % b: the remainder of the
truncated division, carrying the sign of the dividend. -/
def jsMod (a b : ℚ) : ℚ :=
  a - b * (jsTrunc (a / b) : ℚ)

/-- CartLine models both a catalog product record and a line of the cart
(the source spreads the product record into the line, adding qty and size). -/
structure CartLine where
  id : ℤ
  title : String
  category : String
  image : String
  description : String
  size : String
  price : ℚ
  qty : ℚ
deriving DecidableEq, Repr

/-- getCustomPrice, translated from src/src/App.js lines 13-30: the display
price derived from the raw price and the category by substring matching. -/
def getCustomPrice (product : CartLine) : ℚ :=
  let base := product.price
  let category := product.category
  if strContains category "clothing" then
    200 + jsMod base 100
  else if strContains category "electronics" then
    20000 + base * 100
  else if strContains category "jewelery" then
    5000 + base * 200
  else
    1000 + base * 50

/-- Cart is the ordered sequence of cart lines held by the session. -/
abbrev Cart := List CartLine

/-- addToCart, translated from src/src/App.js lines 50-61: if a line with the
product id is found, bump its qty by 1 via map, otherwise append the product
with qty 1. -/
def addToCart (cart : Cart) (product : CartLine) : Cart :=
  if (cart.find? (fun i => i.id == product.id)).isSome then
    cart.map (fun i => if i.id == product.id then { i with qty := i.qty + 1 } else i)
  else
    cart ++ [{ product with qty := 1 }]

/-- updateQty, translated from src/src/App.js lines 63-65: map over the cart
replacing the qty of the line whose id matches. -/
def updateQty (cart : Cart) (id : ℤ) (qty : ℚ) : Cart :=
  cart.map (fun i => if i.id == id then { i with qty := qty } else i)

/-- removeFromCart, translated from src/src/App.js lines 67-69: keep exactly
the lines whose id differs. -/
def removeFromCart (cart : Cart) (id : ℤ) : Cart :=
  cart.filter (fun i => !(i.id == id))

/-- computeTotal, translated from the Cart component reduce at
src/src/App.js lines 227-230: sum of display price times qty. -/
def computeTotal (cart : Cart) : ℚ :=
  cart.foldl (fun s i => s + getCustomPrice i * i.qty) 0

/-- ShipForm models the checkout shipping form state. -/
structure ShipForm where
  name : String
  email : String
  address : String
deriving DecidableEq, Repr

/-- CardInfo models the card payment sub-form state. -/
structure CardInfo where
  number : String
  expiry : String
  cvv : String
deriving DecidableEq, Repr

/-- submitOrder, translated from src/src/App.js lines 274-308: the sequence
of early-return validations, ending in the success alert; the returned string
is the alert message the user observes. JS falsiness of a string field is
modelled as equality with the empty string. -/
def submitOrder (form : ShipForm) (cart : Cart) (payment : String)
    (upi : String) (card : CardInfo) : String :=
  if form.name = "" ∨ form.email = "" ∨ form.address = "" then
    "Please fill all address details"
  else if ¬ (strContains form.email "@" = true) then
    "Invalid email"
  else if cart.length = 0 then
    "Cart is empty"
  else if payment = "upi" ∧ upi.length < 5 then
    "Enter valid UPI ID"
  else if payment = "card" ∧ (card.number.length < 12 ∨ card.expiry = "" ∨ card.cvv.length < 3) then
    "Enter valid card details"
  else if payment = "cod" then
    "Order placed successfully (Cash on Delivery)"
  else
    "Payment successful! Order placed"

/-- getCustomPrice on a clothing category reduces to the first branch. -/
lemma getCustomPrice_clothing (p : CartLine)
    (h : strContains p.category "clothing" = true) :
    getCustomPrice p = 200 + jsMod p.price 100 := by
  simp [getCustomPrice, h]

/-- getCustomPrice on a non-clothing electronics category reduces to the
second branch. -/
lemma getCustomPrice_electronics (p : CartLine)
    (h1 : strContains p.category "clothing" = false)
    (h2 : strContains p.category "electronics" = true) :
    getCustomPrice p = 20000 + p.price * 100 := by
  simp [getCustomPrice, h1, h2]

/-- getCustomPrice on an unmatched category reduces to the default branch. -/
lemma getCustomPrice_default (p : CartLine)
    (h1 : strContains p.category "clothing" = false)
    (h2 : strContains p.category "electronics" = false)
    (h3 : strContains p.category "jewelery" = false) :
    getCustomPrice p = 1000 + p.price * 50 := by
  simp [getCustomPrice, h1, h2, h3]

example : strContains "mens clothing" "clothing" = true := by decide
example : strContains "" "clothing" = false := by decide
example : strContains "abc" "" = true := by decide
example : jsMod 50 100 = 50 := by norm_num [jsMod, jsTrunc]
example : jsMod (-50) 100 = -50 := by norm_num [jsMod, jsTrunc]
example : jsMod (250) 100 = 50 := by norm_num [jsMod, jsTrunc]
example : jsMod (5/2) 100 = 5/2 := by norm_num [jsMod, jsTrunc]
example : getCustomPrice ⟨1, "t", "clothing", "", "", "", 50, 2⟩ = 250 := by
  rw [getCustomPrice_clothing _ (by decide)]; norm_num [jsMod, jsTrunc]
example : getCustomPrice ⟨1, "t", "electronics", "", "", "", 3, 1⟩ = 20300 := by
  rw [getCustomPrice_electronics _ (by decide) (by decide)]; norm_num
example : getCustomPrice ⟨1, "t", "", "", "", "", 2, 1⟩ = 1100 := by
  rw [getCustomPrice_default _ (by decide) (by decide) (by decide)]; norm_num
example : computeTotal [⟨1, "t", "clothing", "", "", "", 50, 2⟩] = 500 := by
  simp only [computeTotal, List.foldl_cons, List.foldl_nil]
  rw [getCustomPrice_clothing _ (by decide)]
  norm_num [jsMod, jsTrunc]

/-- computePriceSpec restates the spec (§4.1) pricing algorithm word for
word: category membership tested by substring containment, first match wins,
in the order clothing, electronics, jewelery, default; to be compared with
the source-derived getCustomPrice. -/
def computePriceSpec (rawPrice : ℚ) (category : String) : ℚ :=
  if strContains category "clothing" then 200 + jsMod rawPrice 100
  else if strContains category "electronics" then 20000 + rawPrice * 100
  else if strContains category "jewelery" then 5000 + rawPrice * 200
  else 1000 + rawPrice * 50

/-- ValidationResult is the spec (§4.3) outcome of checkout validation: one
of the five ordered failure reasons, or success distinguishing cash on
delivery from pre-paid methods. -/
inductive ValidationResult where
  | incompleteShipping
  | invalidEmail
  | emptyCart
  | invalidUpi
  | invalidCard
  | successCod
  | successPrepaid
deriving DecidableEq, Repr

/-- validateOrder restates the spec (§4.3) checkout validator word for word:
short-circuiting, the first failing rule in the listed order determines the
single reported error; on success, cash on delivery is distinguished from
pre-paid methods. To be compared with the source-derived submitOrder. -/
def validateOrder (shipping : ShipForm) (cart : Cart) (method upi : String)
    (card : CardInfo) : ValidationResult :=
  if shipping.name = "" ∨ shipping.email = "" ∨ shipping.address = "" then
    ValidationResult.incompleteShipping
  else if ¬ (strContains shipping.email "@" = true) then
    ValidationResult.invalidEmail
  else if cart = [] then
    ValidationResult.emptyCart
  else if method = "upi" ∧ upi.length < 5 then
    ValidationResult.invalidUpi
  else if method = "card" ∧ (card.number.length < 12 ∨ card.expiry = "" ∨ card.cvv.length < 3) then
    ValidationResult.invalidCard
  else if method = "cod" then
    ValidationResult.successCod
  else
    ValidationResult.successPrepaid

/-- renderResult maps each abstract validation outcome to the alert message
the source shows for it. -/
def renderResult : ValidationResult → String
  | ValidationResult.incompleteShipping => "Please fill all address details"
  | ValidationResult.invalidEmail => "Invalid email"
  | ValidationResult.emptyCart => "Cart is empty"
  | ValidationResult.invalidUpi => "Enter valid UPI ID"
  | ValidationResult.invalidCard => "Enter valid card details"
  | ValidationResult.successCod => "Order placed successfully (Cash on Delivery)"
  | ValidationResult.successPrepaid => "Payment successful! Order placed"

/-- helper: folding additions of f over a list starting from a equals a plus
the sum of the mapped list. -/
lemma foldl_add_eq_sum (f : CartLine → ℚ) (l : List CartLine) (a : ℚ) :
    l.foldl (fun s i => s + f i) a = a + (l.map f).sum := by
  induction l generalizing a with
  | nil => simp
  | cons x l ih => simp [ih, add_assoc]

/-- helper: find? succeeds exactly when some element satisfies the test. -/
lemma find?_isSome_iff (p : CartLine → Bool) (l : List CartLine) :
    (l.find? p).isSome = true ↔ ∃ x ∈ l, p x = true := by
  induction l with
  | nil => simp
  | cons a l ih =>
    by_cases h : p a = true
    · simp [List.find?_cons_of_pos _ h, h]
    · simp [List.find?_cons_of_neg _ (by simpa using h), ih, h]

/-- helper: mapping a function that fixes every element of a list leaves the
list unchanged. -/
lemma map_eq_self_of {α : Type} (l : List α) (f : α → α)
    (h : ∀ a ∈ l, f a = a) : l.map f = l := by
  induction l with
  | nil => rfl
  | cons x l ih =>
    simp only [List.map_cons, h x (List.mem_cons_self x l),
      ih (fun a ha => h a (List.mem_cons_of_mem _ ha))]

/-- helper: filtering with a test every element passes leaves the list
unchanged. -/
lemma filter_eq_self_of {α : Type} (l : List α) (p : α → Bool)
    (h : ∀ a ∈ l, p a = true) : l.filter p = l := by
  induction l with
  | nil => rfl
  | cons x l ih =>
    simp [List.filter_cons, h x (List.mem_cons_self x l),
      ih (fun a ha => h a (List.mem_cons_of_mem _ ha))]

/-- C1: getCustomPrice returns exactly the first matching case, membership
tested by substring containment, in the order clothing, electronics,
jewelery, default; it agrees everywhere with the spec-side computePriceSpec
on the raw price and category, and being a Lean function it is total and
deterministic for every category string. -/
theorem C1_getCustomPrice_matches_spec (product : CartLine) :
    getCustomPrice product = computePriceSpec product.price product.category :=
  rfl

/-- C4: computeTotal equals the sum over lines of the display price times the
quantity, is 0 on the empty cart, and on the cart with the single line
id 1, price 50, category clothing, qty 2 it is (200 + 50) * 2 = 500. -/
theorem C4_computeTotal_correct (cart : Cart) :
    computeTotal cart = (cart.map (fun i => getCustomPrice i * i.qty)).sum ∧
    computeTotal [] = 0 ∧
    computeTotal [⟨1, "t", "clothing", "", "", "", 50, 2⟩] = 500 := by
  refine ⟨?_, rfl, ?_⟩
  · rw [computeTotal, foldl_add_eq_sum]
    simp
  · simp only [computeTotal, List.foldl_cons, List.foldl_nil]
    rw [getCustomPrice_clothing _ (by decide)]
    norm_num [jsMod, jsTrunc]

/-- C5: submitOrder implements exactly the spec-side validateOrder: for all
inputs the alert message is the rendering of the first failing rule, or of
the success outcome distinguishing cash on delivery from pre-paid; in
particular an empty shipping name together with an empty cart reports the
incomplete-shipping message (rule 1 fires before rule 3). -/
theorem C5_submitOrder_matches_validateOrder :
    (∀ (s : ShipForm) (cart : Cart) (m u : String) (c : CardInfo),
      submitOrder s cart m u c = renderResult (validateOrder s cart m u c)) ∧
    (∀ (e a : String) (m u : String) (c : CardInfo),
      submitOrder ⟨"", e, a⟩ [] m u c = "Please fill all address details") := by
  constructor
  · intro s cart m u c
    simp only [submitOrder, validateOrder, List.length_eq_zero]
    split_ifs <;> rfl
  · intro e a m u c
    simp [submitOrder]

/-- C9: when the payment method is neither upi nor card, submitOrder ignores
the upi string and the card fields entirely: two runs differing only in
those fields produce the same message. -/
theorem C9_unused_payment_fields_noninterference
    (s : ShipForm) (cart : Cart) (m : String) (u1 u2 : String)
    (c1 c2 : CardInfo) (h1 : m ≠ "upi") (h2 : m ≠ "card") :
    submitOrder s cart m u1 c1 = submitOrder s cart m u2 c2 := by
  simp [submitOrder, h1, h2]

/-- closed instance of C9 at a cash-on-delivery order with differing upi and
card fields. -/
theorem C9_unused_payment_fields_noninterference_witness :
    submitOrder ⟨"A", "a@b.c", "X"⟩ [⟨1, "t", "", "", "", "", 2, 1⟩] "cod" "u1" ⟨"", "", ""⟩ =
      submitOrder ⟨"A", "a@b.c", "X"⟩ [⟨1, "t", "", "", "", "", 2, 1⟩] "cod" "u2" ⟨"1", "2", "3"⟩ :=
  C9_unused_payment_fields_noninterference _ _ _ _ _ _ _ (by decide) (by decide)

/-- C10: an unrecognized payment method is accepted: with non-empty shipping
fields, an email containing an at sign and a non-empty cart, submitOrder
succeeds for every method other than upi and card, with the cash-on-delivery
message exactly for cod and the pre-paid message otherwise. -/
theorem C10_unrecognized_methods_accepted
    (s : ShipForm) (cart : Cart) (m u : String) (c : CardInfo)
    (h1 : m ≠ "upi") (h2 : m ≠ "card")
    (h3 : s.name ≠ "") (h4 : s.email ≠ "") (h5 : s.address ≠ "")
    (h6 : strContains s.email "@" = true) (h7 : cart ≠ []) :
    submitOrder s cart m u c =
      if m = "cod" then "Order placed successfully (Cash on Delivery)"
      else "Payment successful! Order placed" := by
  simp [submitOrder, List.length_eq_zero, h1, h2, h3, h4, h5, h6, h7]

/-- closed instance of C10 at the method string paypal, outside the
documented set, which is accepted with the pre-paid message. -/
theorem C10_unrecognized_methods_accepted_witness :
    submitOrder ⟨"A", "a@b.c", "X"⟩ [⟨1, "t", "", "", "", "", 2, 1⟩] "paypal" "" ⟨"", "", ""⟩ =
      "Payment successful! Order placed" := by
  rw [C10_unrecognized_methods_accepted _ _ _ _ _ (by decide) (by decide)
    (by decide) (by decide) (by decide) (by decide) (by decide)]
  decide

/-- C2: addToCart merges by id: when a line with the product id exists, that
line's qty is incremented by 1 and every other field of every line is left
unchanged; when none exists, a new line with qty 1 and the product's fields
is appended at the end. The operation is total: it succeeds on every cart
and product. -/
theorem C2_addToCart_correct (cart : Cart) (p : CartLine) :
    ((∃ i ∈ cart, i.id = p.id) →
      addToCart cart p =
        cart.map (fun i => if i.id = p.id then { i with qty := i.qty + 1 } else i)) ∧
    ((∀ i ∈ cart, i.id ≠ p.id) → addToCart cart p = cart ++ [{ p with qty := 1 }]) := by
  constructor
  · rintro ⟨i, hi, hid⟩
    simp only [addToCart]
    rw [if_pos]
    · simp only [beq_iff_eq]
    · rw [find?_isSome_iff]
      exact ⟨i, hi, by simp [hid]⟩
  · intro h
    have hn : (cart.find? (fun i => i.id == p.id)).isSome ≠ true := by
      rw [Ne, find?_isSome_iff]
      rintro ⟨i, hi, hb⟩
      exact h i hi (by simpa using hb)
    simp only [addToCart]
    rw [if_neg hn]

/-- closed instance of C2: merging a second add of id 1 bumps qty 3 to 4 and
keeps the first-inserted fields; adding to the empty cart appends the line
with qty 1. -/
theorem C2_addToCart_correct_witness :
    addToCart [⟨1, "t", "c", "", "", "", 2, 3⟩] ⟨1, "t2", "c2", "", "", "s", 5, 9⟩ =
      [⟨1, "t", "c", "", "", "", 2, 4⟩] ∧
    addToCart [] ⟨1, "t", "c", "", "", "", 2, 9⟩ = [⟨1, "t", "c", "", "", "", 2, 1⟩] := by
  constructor
  · rw [(C2_addToCart_correct [⟨1, "t", "c", "", "", "", 2, 3⟩]
      ⟨1, "t2", "c2", "", "", "s", 5, 9⟩).1 ⟨⟨1, "t", "c", "", "", "", 2, 3⟩, by simp, rfl⟩]
    norm_num [CartLine.mk.injEq]
  · exact (C2_addToCart_correct [] ⟨1, "t", "c", "", "", "", 2, 9⟩).2 (by simp)

/-- C7: updateQty replaces exactly the qty of the line whose id matches,
accepting any rational value including zero and negatives, preserves the
length and every other field of every line, and is the identity when no line
matches the id. -/
theorem C7_updateQty_correct (cart : Cart) (id : ℤ) (q : ℚ) :
    (updateQty cart id q).length = cart.length ∧
    (∀ k (hk : k < cart.length),
      (updateQty cart id q)[k]? =
        some (if (cart.get ⟨k, hk⟩).id = id then { cart.get ⟨k, hk⟩ with qty := q }
              else cart.get ⟨k, hk⟩)) ∧
    ((∀ i ∈ cart, i.id ≠ id) → updateQty cart id q = cart) := by
  refine ⟨by simp [updateQty], ?_, ?_⟩
  · intro k hk
    simp only [updateQty, List.getElem?_map]
    rw [List.getElem?_eq_getElem hk]
    simp [List.get_eq_getElem]
  · intro h
    simp only [updateQty]
    apply map_eq_self_of
    intro a ha
    simp [h a ha]

/-- closed instance of C7: setting qty of the matching line to 0, and a
call with an absent id leaving the cart unchanged. -/
theorem C7_updateQty_correct_witness :
    (updateQty [⟨1, "t", "c", "", "", "", 2, 3⟩] 1 0)[0]? =
      some ⟨1, "t", "c", "", "", "", 2, 0⟩ ∧
    updateQty [⟨1, "t", "c", "", "", "", 2, 3⟩] 9 (-2) =
      [⟨1, "t", "c", "", "", "", 2, 3⟩] := by
  constructor
  · rw [(C7_updateQty_correct [⟨1, "t", "c", "", "", "", 2, 3⟩] 1 0).2.1 0 (by decide)]
    norm_num [CartLine.mk.injEq]
  · exact (C7_updateQty_correct _ _ _).2.2
      (by rintro i hi; simp at hi; subst hi; decide)

/-- C8: removeFromCart leaves no line with the removed id, is the identity
when the id is absent, and keeps every line with a different id. -/
theorem C8_removeFromCart_correct (cart : Cart) (id : ℤ) :
    (∀ i ∈ removeFromCart cart id, i.id ≠ id) ∧
    ((∀ i ∈ cart, i.id ≠ id) → removeFromCart cart id = cart) ∧
    (∀ i ∈ cart, i.id ≠ id → i ∈ removeFromCart cart id) := by
  refine ⟨?_, ?_, ?_⟩
  · intro i hi
    simp only [removeFromCart, List.mem_filter] at hi
    simpa using hi.2
  · intro h
    apply filter_eq_self_of
    intro a ha
    simp [h a ha]
  · intro i hi hne
    simp [removeFromCart, List.mem_filter, hi, hne]

/-- closed instance of C8: removing an absent id 9 leaves the singleton cart
unchanged, and the surviving line is still a member afterwards. -/
theorem C8_removeFromCart_correct_witness :
    removeFromCart [⟨1, "t", "c", "", "", "", 2, 3⟩] 9 =
      [⟨1, "t", "c", "", "", "", 2, 3⟩] ∧
    ⟨1, "t", "c", "", "", "", 2, 3⟩ ∈ removeFromCart [⟨1, "t", "c", "", "", "", 2, 3⟩] 9 := by
  constructor
  · exact (C8_removeFromCart_correct _ _).2.1
      (by rintro i hi; simp at hi; subst hi; decide)
  · exact (C8_removeFromCart_correct _ _).2.2 _ (by simp) (by decide)

/-- cartIds lists the line ids of a cart in order. -/
def cartIds (cart : Cart) : List ℤ :=
  cart.map (fun i => i.id)

/-- UniqueIds states the cart invariant: no two lines share an id. -/
def UniqueIds (cart : Cart) : Prop :=
  (cartIds cart).Nodup

/-- CartOp is one call to a mutating cart store operation. -/
inductive CartOp where
  | add (product : CartLine)
  | update (id : ℤ) (qty : ℚ)
  | remove (id : ℤ)

/-- applyOp performs a single cart store call. -/
def applyOp (cart : Cart) : CartOp → Cart
  | CartOp.add p => addToCart cart p
  | CartOp.update id q => updateQty cart id q
  | CartOp.remove id => removeFromCart cart id

/-- applyOps performs a finite sequence of cart store calls in order. -/
def applyOps (cart : Cart) (ops : List CartOp) : Cart :=
  ops.foldl applyOp cart

/-- helper: the ids after addToCart are the old ids, extended by the new id
exactly when it was absent. -/
lemma cartIds_addToCart (cart : Cart) (p : CartLine) :
    cartIds (addToCart cart p) =
      if p.id ∈ cartIds cart then cartIds cart else cartIds cart ++ [p.id] := by
  by_cases hm : p.id ∈ cartIds cart
  · rw [if_pos hm]
    have hs : (cart.find? (fun i => i.id == p.id)).isSome = true := by
      rw [find?_isSome_iff]
      obtain ⟨i, hi, hidm⟩ := List.mem_map.mp hm
      exact ⟨i, hi, by simp [hidm]⟩
    simp only [addToCart, hs, if_true]
    simp only [cartIds, List.map_map]
    apply List.map_congr_left
    intro a _
    simp only [Function.comp_apply]
    split <;> rfl
  · rw [if_neg hm]
    have hs : (cart.find? (fun i => i.id == p.id)).isSome ≠ true := by
      rw [Ne, find?_isSome_iff]
      rintro ⟨i, hi, hb⟩
      exact hm (List.mem_map.mpr ⟨i, hi, by simpa using hb⟩)
    simp only [addToCart]
    rw [if_neg hs]
    simp [cartIds]

/-- helper: updateQty never changes the ids of the cart. -/
lemma cartIds_updateQty (cart : Cart) (id : ℤ) (q : ℚ) :
    cartIds (updateQty cart id q) = cartIds cart := by
  simp only [cartIds, updateQty, List.map_map]
  apply List.map_congr_left
  intro a _
  simp only [Function.comp_apply]
  split <;> rfl

/-- helper: a single cart store call preserves the uniqueness invariant. -/
lemma uniqueIds_applyOp (cart : Cart) (op : CartOp) (h : UniqueIds cart) :
    UniqueIds (applyOp cart op) := by
  cases op with
  | add p =>
    show UniqueIds (addToCart cart p)
    unfold UniqueIds at h ⊢
    rw [cartIds_addToCart]
    by_cases hm : p.id ∈ cartIds cart
    · rwa [if_pos hm]
    · rw [if_neg hm]
      exact h.append (List.nodup_singleton _)
        (fun a ha hb => by simp at hb; subst hb; exact hm ha)
  | update id q =>
    show UniqueIds (updateQty cart id q)
    unfold UniqueIds at h ⊢
    rwa [cartIds_updateQty]
  | remove id =>
    show UniqueIds (removeFromCart cart id)
    unfold UniqueIds at h ⊢
    have hs : (removeFromCart cart id).Sublist cart := List.filter_sublist cart
    exact (hs.map (fun i : CartLine => i.id)).nodup h

/-- helper: a finite sequence of cart store calls preserves the uniqueness
invariant. -/
lemma uniqueIds_applyOps (cart : Cart) (ops : List CartOp) (h : UniqueIds cart) :
    UniqueIds (applyOps cart ops) := by
  induction ops generalizing cart with
  | nil => exact h
  | cons op ops ih =>
    simp only [applyOps, List.foldl_cons]
    exact ih _ (uniqueIds_applyOp _ _ h)

/-- helper: a sequence of add operations is a foldl of addToCart. -/
lemma applyOps_map_add (ps : List CartLine) : ∀ cart : Cart,
    applyOps cart (ps.map CartOp.add) = ps.foldl addToCart cart := by
  induction ps with
  | nil => intro cart; rfl
  | cons p ps ih =>
    intro cart
    simp only [List.map_cons, applyOps, List.foldl_cons]
    exact ih (addToCart cart p)

/-- helper: the set of ids after folding adds is the old id set united with
the ids of the added products. -/
lemma cartIds_toFinset_foldl (ps : List CartLine) : ∀ cart : Cart,
    (cartIds (ps.foldl addToCart cart)).toFinset =
      (cartIds cart).toFinset ∪ (ps.map (fun i => i.id)).toFinset := by
  induction ps with
  | nil => intro cart; simp
  | cons p ps ih =>
    intro cart
    rw [List.foldl_cons, ih, cartIds_addToCart]
    by_cases hm : p.id ∈ cartIds cart
    · rw [if_pos hm]
      ext x
      simp only [Finset.mem_union, List.mem_toFinset, List.map_cons, List.mem_cons]
      constructor
      · rintro (h | h)
        · exact Or.inl h
        · exact Or.inr (Or.inr h)
      · rintro (h | h | h)
        · exact Or.inl h
        · exact Or.inl (h ▸ hm)
        · exact Or.inr h
    · rw [if_neg hm]
      ext x
      simp only [Finset.mem_union, List.mem_toFinset, List.mem_append,
        List.map_cons, List.mem_cons, List.mem_singleton]
      tauto

/-- helper: starting from the empty cart, a sequence of adds yields one line
per distinct added id. -/
lemma length_foldl_addToCart (ps : List CartLine) :
    (ps.foldl addToCart []).length = (ps.map (fun i => i.id)).toFinset.card := by
  have h1 : UniqueIds (ps.foldl addToCart []) := by
    rw [← applyOps_map_add]
    exact uniqueIds_applyOps _ _ (by simp [UniqueIds, cartIds])
  calc (ps.foldl addToCart []).length
      = (cartIds (ps.foldl addToCart [])).length := (List.length_map _ _).symm
    _ = (cartIds (ps.foldl addToCart [])).toFinset.card :=
        (List.toFinset_card_of_nodup h1).symm
    _ = ((cartIds ([] : Cart)).toFinset ∪ (ps.map (fun i => i.id)).toFinset).card := by
        rw [cartIds_toFinset_foldl]
    _ = (ps.map (fun i => i.id)).toFinset.card := by simp [cartIds]

/-- C3: uniqueness by id is an invariant: from a cart with pairwise distinct
ids, any finite sequence of addToCart, updateQty and removeFromCart calls
(hence any single call) yields a cart with pairwise distinct ids; and after
any sequence of addToCart calls from the empty cart, the number of lines is
the number of distinct ids added. -/
theorem C3_uniqueIds_invariant (cart : Cart) (ops : List CartOp)
    (h : UniqueIds cart) :
    UniqueIds (applyOps cart ops) ∧
    ∀ ps : List CartLine,
      (applyOps [] (ps.map CartOp.add)).length = (ps.map (fun i => i.id)).toFinset.card := by
  refine ⟨uniqueIds_applyOps _ _ h, ?_⟩
  intro ps
  rw [applyOps_map_add]
  exact length_foldl_addToCart ps

/-- closed instance of C3: two adds of id 5, a quantity update and a removal
keep ids unique, and adding id 5 twice from the empty cart yields one line. -/
theorem C3_uniqueIds_invariant_witness :
    UniqueIds (applyOps [] [CartOp.add ⟨5, "t", "c", "", "", "", 2, 1⟩,
      CartOp.add ⟨5, "u", "d", "", "", "", 3, 1⟩, CartOp.update 5 3, CartOp.remove 7]) ∧
    (applyOps [] (([⟨5, "t", "c", "", "", "", 2, 1⟩,
        ⟨5, "u", "d", "", "", "", 3, 1⟩] : List CartLine).map CartOp.add)).length =
      (([⟨5, "t", "c", "", "", "", 2, 1⟩,
        ⟨5, "u", "d", "", "", "", 3, 1⟩] : List CartLine).map (fun i => i.id)).toFinset.card :=
  ⟨(C3_uniqueIds_invariant [] _ (by simp [UniqueIds, cartIds])).1,
   (C3_uniqueIds_invariant [] [] (by simp [UniqueIds, cartIds])).2 _⟩

/-- counterexample to C6 as stated: for the clothing item with raw price
-50, the JS remainder is -50, so the display price is 150, below 200; the
interval bound fails for negative raw prices. -/
theorem C6_clothing_range_counterexample :
    strContains (CartLine.category ⟨1, "t", "clothing", "", "", "", -50, 1⟩) "clothing" = true ∧
    getCustomPrice ⟨1, "t", "clothing", "", "", "", -50, 1⟩ = 150 ∧
    ¬ (200 ≤ getCustomPrice ⟨1, "t", "clothing", "", "", "", -50, 1⟩ ∧
       getCustomPrice ⟨1, "t", "clothing", "", "", "", -50, 1⟩ < 300) := by
  have hm : jsMod (-50) 100 = -50 := by norm_num [jsMod, jsTrunc]
  have h : getCustomPrice ⟨1, "t", "clothing", "", "", "", -50, 1⟩ = 150 := by
    rw [getCustomPrice_clothing _ (by decide)]
    rw [show CartLine.price ⟨1, "t", "clothing", "", "", "", -50, 1⟩ = -50 from rfl, hm]
    norm_num
  refine ⟨by decide, h, ?_⟩
  rw [h]
  norm_num

/-- C6 amended: for every item whose category contains clothing and whose
raw price is nonnegative, the display price lies in the half-open interval
[200, 300); jsMod carries exact fractional remainder semantics on rationals,
so non-integer raw prices keep their fractional part. -/
theorem C6_clothing_price_range (p : CartLine)
    (h : strContains p.category "clothing" = true) (hp : 0 ≤ p.price) :
    200 ≤ getCustomPrice p ∧ getCustomPrice p < 300 := by
  rw [getCustomPrice_clothing p h]
  have h0 : (0 : ℚ) ≤ p.price / 100 := by positivity
  have hmod : jsMod p.price 100 = 100 * Int.fract (p.price / 100) := by
    rw [jsMod, jsTrunc, if_pos h0, Int.fract]
    ring
  constructor
  · have hf := Int.fract_nonneg (p.price / 100)
    rw [hmod]
    linarith
  · have hf := Int.fract_lt_one (p.price / 100)
    rw [hmod]
    linarith

/-- closed instance of the amended C6 at a clothing item with the
non-integer raw price 501/2: the display price is within [200, 300). -/
theorem C6_clothing_price_range_witness :
    200 ≤ getCustomPrice ⟨1, "t", "mens clothing", "", "", "", 501/2, 1⟩ ∧
    getCustomPrice ⟨1, "t", "mens clothing", "", "", "", 501/2, 1⟩ < 300 :=
  C6_clothing_price_range _ (by decide) (by norm_num)
